import Mathlib

/-!
Verification of the hybrid security-analysis scripts
(`setup_all_databases.py`, `analysis.py`).

The relational (SQLite) tables are modelled as lists of records; SQL
queries become list joins, filters and maps.  The document store
(MongoDB collections) is modelled as lists of documents; aggregation
pipelines become list transformations.  SQLite text comparison is
byte-wise (`memcmp`), modelled by `charsLt` on code points; SQLite
`LIKE` is ASCII-case-insensitive, modelled by `likeContains`.
Timestamps in the document store are modelled as integers (seconds);
relational timestamps keep their textual `YYYY-MM-DD HH:MM:SS` form,
as the queries operate on them with `strftime`.
-/

namespace SecuritySuite

/-! ### Byte-wise string ordering (SQLite text comparison, pandas string sort) -/

/-- Lexicographic strict order on code-point lists, as `memcmp` on ASCII data. -/
def charsLt : List Char → List Char → Bool
  | _, [] => false
  | [], _ :: _ => true
  | a :: as, b :: bs =>
    decide (a.toNat < b.toNat) || (decide (a.toNat = b.toNat) && charsLt as bs)

/-- Strict lexicographic order on strings. -/
def strLt (a b : String) : Bool := charsLt a.toList b.toList

theorem charsLt_irrefl : ∀ l : List Char, charsLt l l = false
  | [] => rfl
  | a :: as => by simp [charsLt, charsLt_irrefl as]

theorem charsLt_trans : ∀ {a b c : List Char},
    charsLt a b = true → charsLt b c = true → charsLt a c = true
  | _, [], _, hab, _ => by simp [charsLt] at hab
  | [], _ :: _, [], _, hbc => by simp [charsLt] at hbc
  | [], _ :: _, _ :: _, _, _ => rfl
  | _ :: _, _ :: _, [], _, hbc => by simp [charsLt] at hbc
  | x :: xs, y :: ys, z :: zs, hab, hbc => by
    simp only [charsLt, Bool.or_eq_true, Bool.and_eq_true, decide_eq_true_eq] at *
    rcases hab with h1 | ⟨h1, h1'⟩ <;> rcases hbc with h2 | ⟨h2, h2'⟩
    · exact Or.inl (h1.trans h2)
    · exact Or.inl (h2 ▸ h1)
    · exact Or.inl (h1 ▸ h2)
    · exact Or.inr ⟨h1.trans h2, charsLt_trans h1' h2'⟩

theorem charsLt_connex : ∀ {a b : List Char},
    charsLt a b = false → charsLt b a = false → a = b
  | [], [], _, _ => rfl
  | [], _ :: _, hab, _ => by cases hab
  | _ :: _, [], _, hba => by cases hba
  | x :: xs, y :: ys, hab, hba => by
    simp only [charsLt, Bool.or_eq_false_iff, Bool.and_eq_false_iff,
      decide_eq_false_iff_not, not_lt] at hab hba
    obtain ⟨hxy, hab'⟩ := hab
    obtain ⟨hyx, hba'⟩ := hba
    have heq : x.toNat = y.toNat := le_antisymm hyx hxy
    have hx : x = y := by
      rw [← Char.ofNat_toNat x, heq, Char.ofNat_toNat]
    subst hx
    rcases hab' with h | h
    · exact absurd rfl h
    · rcases hba' with h' | h'
      · exact absurd rfl h'
      · exact congrArg (x :: ·) (charsLt_connex h h')

theorem strLt_irrefl (a : String) : strLt a a = false := charsLt_irrefl _

theorem strLt_trans {a b c : String} (hab : strLt a b = true) (hbc : strLt b c = true) :
    strLt a c = true := charsLt_trans hab hbc

theorem strLt_connex {a b : String} (hab : strLt a b = false) (hba : strLt b a = false) :
    a = b :=
  String.toList_inj.mp (charsLt_connex hab hba)

/-! ### ASCII lower-casing and `LIKE '%pat%'` (SQLite is case-insensitive on ASCII) -/

/-- ASCII lower-casing of one character, as SQLite `LIKE` folds patterns. -/
def lowerChar (c : Char) : Char :=
  if 65 ≤ c.toNat ∧ c.toNat ≤ 90 then Char.ofNat (c.toNat + 32) else c

/-- Containment of `needle` in `hay` as contiguous sublist. -/
def containsSub : List Char → List Char → Bool
  | [], needle => needle.isEmpty
  | h :: t, needle => needle.isPrefixOf (h :: t) || containsSub t needle

/-- SQLite `s LIKE '%pat%'` with the default ASCII-case-insensitive collation. -/
def likeContains (pat s : String) : Bool :=
  containsSub (s.toList.map lowerChar) (pat.toList.map lowerChar)

/-- Modelled from the spec: the spec claims the filename match is a
case-sensitive substring test, which is what this definition performs;
it is compared against the code's `likeContains`. -/
def specCaseSensitiveContains (pat s : String) : Bool :=
  containsSub s.toList pat.toList

/-! ### Relational schema (`setup_all_databases.py`, section A) -/

structure Employee where
  employee_id : Nat
  first_name : String
  last_name : String
  Department : String
  email : String
  role_ID : Nat
deriving DecidableEq

structure FileRec where
  file_id : Nat
  file_name : String
deriving DecidableEq

structure FileAccess where
  access_id : Nat
  employee_id : Nat
  access_type_id : Nat
  timestamp : String
  file_id : Nat
deriving DecidableEq

structure Endpoint where
  device_id : Nat
  employee_id : Nat
  os_name : String
  os_version : String
  last_patch_date : String
  antivirus_status : String
deriving DecidableEq

structure SecurityDb where
  Employee_Data : List Employee
  File_Data : List FileRec
  File_Access : List FileAccess
  Endpoint_Security : List Endpoint

/-- `e.first_name || ' ' || e.last_name`. -/
def fullName (e : Employee) : String := e.first_name ++ " " ++ e.last_name

/-! ### Use case 1: insider threat (off-hours access), `analysis.py` lines 42-57 -/

/-- `strftime('%H', ts)` on a `YYYY-MM-DD HH:MM:SS` literal: characters 11-12. -/
def strftimeH (ts : String) : String := ((ts.toList.drop 11).take 2).asString

/-- The `WHERE` clause `strftime('%H', f.timestamp) < '08' OR strftime('%H', f.timestamp) >= '20'`
(text comparison; `x >= y` is the negation of `x < y`). -/
def off_hours_pred (ts : String) : Bool :=
  strLt (strftimeH ts) "08" || !(strLt (strftimeH ts) "20")

/-- `FROM File_Access f JOIN Employee_Data e ON f.employee_id = e.employee_id`. -/
def joinAccessEmployee (db : SecurityDb) : List (FileAccess × Employee) :=
  db.File_Access.flatMap fun f =>
    (db.Employee_Data.filter fun e => f.employee_id == e.employee_id).map fun e => (f, e)

/-- Use case 1: rows `(Employee, Department, Access_Time)` of accesses outside 08:00-20:00. -/
def query_insider (db : SecurityDb) : List (String × String × String) :=
  ((joinAccessEmployee db).filter fun fe => off_hours_pred fe.1.timestamp).map
    fun fe => (fullName fe.2, fe.2.Department, fe.1.timestamp)

theorem mem_joinAccessEmployee {db : SecurityDb} {p : FileAccess × Employee} :
    p ∈ joinAccessEmployee db ↔
      p.1 ∈ db.File_Access ∧ p.2 ∈ db.Employee_Data ∧ p.1.employee_id = p.2.employee_id := by
  obtain ⟨f, e⟩ := p
  simp only [joinAccessEmployee, List.mem_flatMap, List.mem_map, List.mem_filter,
    beq_iff_eq, Prod.mk.injEq]
  constructor
  · rintro ⟨f', hf', e', ⟨he', hfe⟩, rfl, rfl⟩
    exact ⟨hf', he', hfe⟩
  · rintro ⟨hf, he, hfe⟩
    exact ⟨f, hf, e, ⟨he, hfe⟩, rfl, rfl⟩

theorem mem_query_insider {db : SecurityDb} {row : String × String × String} :
    row ∈ query_insider db ↔
      ∃ f ∈ db.File_Access, ∃ e ∈ db.Employee_Data, f.employee_id = e.employee_id ∧
        off_hours_pred f.timestamp = true ∧
        row = (fullName e, e.Department, f.timestamp) := by
  simp only [query_insider, List.mem_map, List.mem_filter]
  constructor
  · rintro ⟨⟨f, e⟩, ⟨hmem, hoff⟩, rfl⟩
    obtain ⟨hf, he, hfe⟩ := mem_joinAccessEmployee.mp hmem
    exact ⟨f, hf, e, he, hfe, hoff, rfl⟩
  · rintro ⟨f, hf, e, he, hfe, hoff, rfl⟩
    exact ⟨(f, e), ⟨mem_joinAccessEmployee.mpr ⟨hf, he, hfe⟩, hoff⟩, rfl⟩

/-- Two-digit rendering of an hour, as `strftime('%H')` produces. -/
def twoDigit (h : Nat) : String := if h < 10 then "0" ++ toString h else toString h

theorem off_hours_pred_twoDigit {ts : String} {h : Nat} (hh : h < 24)
    (hts : strftimeH ts = twoDigit h) :
    off_hours_pred ts = (decide (h < 8) || decide (20 ≤ h)) := by
  unfold off_hours_pred
  rw [hts]
  interval_cases h <;> decide

/-- C5: the off-hours query selects exactly the joined access events whose hour lies
outside [08:00, 20:00): an event whose timestamp has hour field `h` (with `h < 24`)
appears in the result if and only if `h < 8` or `20 ≤ h`; in particular hour 08 is
excluded (e.g. 08:00), hour 19 is excluded (e.g. 19:59) and hour 20 is included
(e.g. 20:00). -/
theorem off_hours_window (db : SecurityDb) (f : FileAccess) (e : Employee) (h : Nat)
    (hf : f ∈ db.File_Access) (he : e ∈ db.Employee_Data)
    (hfe : f.employee_id = e.employee_id) (hh : h < 24)
    (hts : strftimeH f.timestamp = twoDigit h) :
    (fullName e, e.Department, f.timestamp) ∈ query_insider db ↔ (h < 8 ∨ 20 ≤ h) := by
  rw [mem_query_insider]
  constructor
  · rintro ⟨f', _, e', _, _, hoff, heq⟩
    have hts' : f'.timestamp = f.timestamp :=
      (congrArg (fun r : String × String × String => r.2.2) heq).symm
    rw [hts'] at hoff
    rw [off_hours_pred_twoDigit hh hts] at hoff
    simpa using hoff
  · intro hwin
    refine ⟨f, hf, e, he, hfe, ?_, rfl⟩
    rw [off_hours_pred_twoDigit hh hts]
    simpa using hwin

/-- Witness: a concrete database with a single access at hour 20:00 exactly;
the row is reported by the off-hours query. -/
def wEmployee : Employee :=
  { employee_id := 1, first_name := "Alice", last_name := "Johnson",
    Department := "Finance", email := "alice.johnson@bank.com", role_ID := 1 }

def wAccess2000 : FileAccess :=
  { access_id := 1, employee_id := 1, access_type_id := 1,
    timestamp := "2024-03-25 20:00:00", file_id := 1 }

def wDb : SecurityDb :=
  { Employee_Data := [wEmployee], File_Data := [], File_Access := [wAccess2000],
    Endpoint_Security := [] }

theorem off_hours_window_witness :
    ("Alice Johnson", "Finance", "2024-03-25 20:00:00") ∈ query_insider wDb :=
  (off_hours_window wDb wAccess2000 wEmployee 20 (by decide) (by decide) rfl
    (by decide) (by decide)).mpr (Or.inr (by decide))

/-! ### Use case 8: endpoint vulnerability, `analysis.py` lines 184-201 -/

/-- The `WHERE` clause `s.antivirus_status != 'Active' OR s.os_version IN ('XP', '7')`. -/
def vuln_pred (s : Endpoint) : Bool :=
  !(s.antivirus_status == "Active") || (s.os_version == "XP" || s.os_version == "7")

/-- `FROM Endpoint_Security s JOIN Employee_Data e ON s.employee_id = e.employee_id`. -/
def joinEndpointEmployee (db : SecurityDb) : List (Endpoint × Employee) :=
  db.Endpoint_Security.flatMap fun s =>
    (db.Employee_Data.filter fun e => s.employee_id == e.employee_id).map fun e => (s, e)

/-- Use case 8: rows `(Owner, os_name, os_version, antivirus_status)` of risky devices. -/
def query_vuln (db : SecurityDb) : List (String × String × String × String) :=
  ((joinEndpointEmployee db).filter fun se => vuln_pred se.1).map
    fun se => (fullName se.2, se.1.os_name, se.1.os_version, se.1.antivirus_status)

theorem mem_joinEndpointEmployee {db : SecurityDb} {p : Endpoint × Employee} :
    p ∈ joinEndpointEmployee db ↔
      p.1 ∈ db.Endpoint_Security ∧ p.2 ∈ db.Employee_Data ∧
        p.1.employee_id = p.2.employee_id := by
  obtain ⟨s, e⟩ := p
  simp only [joinEndpointEmployee, List.mem_flatMap, List.mem_map, List.mem_filter,
    beq_iff_eq, Prod.mk.injEq]
  constructor
  · rintro ⟨s', hs', e', ⟨he', hse⟩, rfl, rfl⟩
    exact ⟨hs', he', hse⟩
  · rintro ⟨hs, he, hse⟩
    exact ⟨s, hs, e, ⟨he, hse⟩, rfl, rfl⟩

theorem mem_query_vuln {db : SecurityDb} {row : String × String × String × String} :
    row ∈ query_vuln db ↔
      ∃ s ∈ db.Endpoint_Security, ∃ e ∈ db.Employee_Data, s.employee_id = e.employee_id ∧
        vuln_pred s = true ∧
        row = (fullName e, s.os_name, s.os_version, s.antivirus_status) := by
  simp only [query_vuln, List.mem_map, List.mem_filter]
  constructor
  · rintro ⟨⟨s, e⟩, ⟨hmem, hp⟩, rfl⟩
    obtain ⟨hs, he, hse⟩ := mem_joinEndpointEmployee.mp hmem
    exact ⟨s, hs, e, he, hse, hp, rfl⟩
  · rintro ⟨s, hs, e, he, hse, hp, rfl⟩
    exact ⟨(s, e), ⟨mem_joinEndpointEmployee.mpr ⟨hs, he, hse⟩, hp⟩, rfl⟩

/-- C9: the endpoint-vulnerability query flags exactly the joined endpoint rows whose
antivirus status is not "Active" or whose OS version is "XP" or "7" (inclusive OR);
in particular ("Active", "11") is not flagged while ("Disabled", "11") and
("Active", "XP") are flagged. -/
theorem endpoint_vuln_flag_iff (db : SecurityDb) (s : Endpoint) (e : Employee)
    (hs : s ∈ db.Endpoint_Security) (he : e ∈ db.Employee_Data)
    (hse : s.employee_id = e.employee_id) :
    (fullName e, s.os_name, s.os_version, s.antivirus_status) ∈ query_vuln db ↔
      (s.antivirus_status ≠ "Active" ∨ s.os_version = "XP" ∨ s.os_version = "7") := by
  rw [mem_query_vuln]
  constructor
  · rintro ⟨s', _, e', _, _, hp, heq⟩
    have hos : s'.os_version = s.os_version :=
      (congrArg (fun r : String × String × String × String => r.2.2.1) heq).symm
    have hav : s'.antivirus_status = s.antivirus_status :=
      (congrArg (fun r : String × String × String × String => r.2.2.2) heq).symm
    rw [vuln_pred, hos, hav] at hp
    simpa [- ne_eq, Bool.or_eq_true, bne_iff_ne] using hp
  · intro hcond
    refine ⟨s, hs, e, he, hse, ?_, rfl⟩
    rw [vuln_pred]
    simpa [- ne_eq, Bool.or_eq_true, bne_iff_ne] using hcond

/-- Witness: a device with antivirus "Disabled" and OS version "11" is flagged. -/
def wEndpoint : Endpoint :=
  { device_id := 6, employee_id := 1, os_name := "Windows", os_version := "11",
    last_patch_date := "2023-11-01", antivirus_status := "Disabled" }

def wVulnDb : SecurityDb :=
  { Employee_Data := [wEmployee], File_Data := [], File_Access := [],
    Endpoint_Security := [wEndpoint] }

theorem endpoint_vuln_flag_iff_witness :
    ("Alice Johnson", "Windows", "11", "Disabled") ∈ query_vuln wVulnDb :=
  (endpoint_vuln_flag_iff wVulnDb wEndpoint wEmployee (by decide) (by decide) rfl).mpr
    (Or.inl (by decide))

/-! ### Use case 7: RBAC violation, `analysis.py` lines 160-179 -/

/-- The `WHERE` clause: department not in ('Finance', 'HR') and filename `LIKE`
'%Budget%' or '%Payroll%' (SQLite `LIKE`, ASCII-case-insensitive). -/
def rbac_pred (e : Employee) (f : FileRec) : Bool :=
  (!(e.Department == "Finance") && !(e.Department == "HR")) &&
    (likeContains "Budget" f.file_name || likeContains "Payroll" f.file_name)

/-- The triple join of `File_Access`, `Employee_Data` and `File_Data`. -/
def joinRbac (db : SecurityDb) : List (FileAccess × Employee × FileRec) :=
  db.File_Access.flatMap fun fa =>
    (db.Employee_Data.filter fun e => fa.employee_id == e.employee_id).flatMap fun e =>
      (db.File_Data.filter fun f => fa.file_id == f.file_id).map fun f => (fa, e, f)

/-- Use case 7: rows `(Employee, Department, file_name)` of RBAC violations. -/
def query_rbac (db : SecurityDb) : List (String × String × String) :=
  ((joinRbac db).filter fun t => rbac_pred t.2.1 t.2.2).map
    fun t => (fullName t.2.1, t.2.1.Department, t.2.2.file_name)

theorem mem_joinRbac {db : SecurityDb} {t : FileAccess × Employee × FileRec} :
    t ∈ joinRbac db ↔
      t.1 ∈ db.File_Access ∧ t.2.1 ∈ db.Employee_Data ∧ t.2.2 ∈ db.File_Data ∧
        t.1.employee_id = t.2.1.employee_id ∧ t.1.file_id = t.2.2.file_id := by
  obtain ⟨fa, e, f⟩ := t
  simp only [joinRbac, List.mem_flatMap, List.mem_map, List.mem_filter,
    beq_iff_eq, Prod.mk.injEq]
  constructor
  · rintro ⟨fa', hfa', e', ⟨he', hee⟩, f', ⟨hf', hff⟩, rfl, rfl, rfl⟩
    exact ⟨hfa', he', hf', hee, hff⟩
  · rintro ⟨hfa, he, hf, hee, hff⟩
    exact ⟨fa, hfa, e, ⟨he, hee⟩, f, ⟨hf, hff⟩, rfl, rfl, rfl⟩

theorem mem_query_rbac {db : SecurityDb} {row : String × String × String} :
    row ∈ query_rbac db ↔
      ∃ fa ∈ db.File_Access, ∃ e ∈ db.Employee_Data, ∃ f ∈ db.File_Data,
        fa.employee_id = e.employee_id ∧ fa.file_id = f.file_id ∧
        rbac_pred e f = true ∧ row = (fullName e, e.Department, f.file_name) := by
  simp only [query_rbac, List.mem_map, List.mem_filter]
  constructor
  · rintro ⟨⟨fa, e, f⟩, ⟨hmem, hp⟩, rfl⟩
    obtain ⟨hfa, he, hf, hee, hff⟩ := mem_joinRbac.mp hmem
    exact ⟨fa, hfa, e, he, f, hf, hee, hff, hp, rfl⟩
  · rintro ⟨fa, hfa, e, he, f, hf, hee, hff, hp, rfl⟩
    exact ⟨(fa, e, f), ⟨mem_joinRbac.mpr ⟨hfa, he, hf, hee, hff⟩, hp⟩, rfl⟩

/-- A one-row database on which the RBAC check and the spec's case-sensitive
reading disagree: an IT employee accessing a file named `q1_budget.xlsx`. -/
def cexFileAccess : FileAccess :=
  { access_id := 1, employee_id := 2, access_type_id := 1,
    timestamp := "2024-03-25 10:00:00", file_id := 1 }

def cexItEmployee : Employee :=
  { employee_id := 2, first_name := "Bob", last_name := "Smith",
    Department := "IT", email := "bob.smith@bank.com", role_ID := 2 }

def cexRbacDb : SecurityDb :=
  { Employee_Data := [cexItEmployee],
    File_Data := [{ file_id := 1, file_name := "q1_budget.xlsx" }],
    File_Access := [cexFileAccess], Endpoint_Security := [] }

/-- C2 counterexample: the file name `q1_budget.xlsx` contains "Budget" only in a
different letter case, so by the claim its access row must not be flagged; yet the
query (SQLite `LIKE` being ASCII-case-insensitive) does flag it. -/
theorem rbac_case_sensitivity_cex :
    query_rbac cexRbacDb = [("Bob Smith", "IT", "q1_budget.xlsx")] ∧
      specCaseSensitiveContains "Budget" "q1_budget.xlsx" = false ∧
      specCaseSensitiveContains "Payroll" "q1_budget.xlsx" = false := by
  refine ⟨?_, by decide, by decide⟩
  decide

/-- C2 amended: the RBAC check flags exactly the joined rows where the employee's
department is neither "Finance" nor "HR" and the file name contains "Budget" or
"Payroll" as an ASCII-case-insensitive substring (SQLite `LIKE` semantics). -/
theorem rbac_flag_iff (db : SecurityDb) (fa : FileAccess) (e : Employee) (f : FileRec)
    (hfa : fa ∈ db.File_Access) (he : e ∈ db.Employee_Data) (hf : f ∈ db.File_Data)
    (hee : fa.employee_id = e.employee_id) (hff : fa.file_id = f.file_id) :
    (fullName e, e.Department, f.file_name) ∈ query_rbac db ↔
      (e.Department ≠ "Finance" ∧ e.Department ≠ "HR" ∧
        (likeContains "Budget" f.file_name = true ∨
          likeContains "Payroll" f.file_name = true)) := by
  rw [mem_query_rbac]
  constructor
  · rintro ⟨fa', _, e', _, f', _, _, _, hp, heq⟩
    have hdep : e'.Department = e.Department :=
      (congrArg (fun r : String × String × String => r.2.1) heq).symm
    have hfn : f'.file_name = f.file_name :=
      (congrArg (fun r : String × String × String => r.2.2) heq).symm
    rw [rbac_pred, hdep, hfn] at hp
    have hp' :
        (e.Department ≠ "Finance" ∧ e.Department ≠ "HR") ∧
          (likeContains "Budget" f.file_name = true ∨
            likeContains "Payroll" f.file_name = true) := by
      simpa [- ne_eq, Bool.and_eq_true, Bool.or_eq_true] using hp
    exact ⟨hp'.1.1, hp'.1.2, hp'.2⟩
  · rintro ⟨h1, h2, h3⟩
    refine ⟨fa, hfa, e, he, f, hf, hee, hff, ?_, rfl⟩
    rw [rbac_pred]
    simpa [- ne_eq, Bool.and_eq_true, Bool.or_eq_true] using ⟨⟨h1, h2⟩, h3⟩

/-- Witness: an IT employee accessing `Q1_Budget_Review.xlsx` is flagged. -/
def wRbacDb : SecurityDb :=
  { Employee_Data := [cexItEmployee],
    File_Data := [{ file_id := 1, file_name := "Q1_Budget_Review.xlsx" }],
    File_Access := [cexFileAccess], Endpoint_Security := [] }

theorem rbac_flag_iff_witness :
    ("Bob Smith", "IT", "Q1_Budget_Review.xlsx") ∈ query_rbac wRbacDb :=
  (rbac_flag_iff wRbacDb cexFileAccess cexItEmployee
    { file_id := 1, file_name := "Q1_Budget_Review.xlsx" }
    (by decide) (by decide) (by decide) rfl rfl).mpr
    ⟨by decide, by decide, Or.inl (by decide)⟩

/-! ### Document store (`Access_logs`, `Phishing_attacks` collections) -/

/-- A document's `LOCATION` field: possibly absent, possibly not a dictionary,
or a dictionary of string fields. -/
inductive LocField where
  | absent : LocField
  | nonDict : LocField
  | dict : List (String × String) → LocField
deriving DecidableEq

/-- An `Access_logs` document (subject id, timestamp in seconds, location, status). -/
structure AccessLog where
  _ID : String
  TIMESTAMP : Int
  LOCATION : LocField
  STATUS : String
deriving DecidableEq

/-- The country-extraction lambda of `analysis.py` line 135:
`x.get('Country') if isinstance(x, dict) else None`. -/
def getCountry (x : LocField) : Option String :=
  match x with
  | .dict fields => (fields.find? fun p => p.1 == "Country").map fun p => p.2
  | _ => none

/-- The derived `Country` column of a log row. -/
def country (e : AccessLog) : Option String := getCountry e.LOCATION

/-! ### Use case 3: repeated failed logins, `analysis.py` lines 78-91 -/

/-- Stage `{"$match": {"STATUS": "Failed"}}`. -/
def failedLogs (logs : List AccessLog) : List AccessLog :=
  logs.filter fun l => l.STATUS == "Failed"

/-- The distinct group keys of stage `{"$group": {"_id": "$_ID", ...}}`. -/
def failedIds (logs : List AccessLog) : List String :=
  ((failedLogs logs).map fun l => l._ID).dedup

/-- The `{"$sum": 1}` accumulator for one group key. -/
def failedCountOf (logs : List AccessLog) (i : String) : Nat :=
  ((failedLogs logs).filter fun l => l._ID == i).length

/-- Stage `{"$group": {"_id": "$_ID", "Failed_Count": {"$sum": 1}}}`. -/
def groupCounts (logs : List AccessLog) : List (String × Nat) :=
  (failedIds logs).map fun i => (i, failedCountOf logs i)

/-- The ordering of stage `{"$sort": {"Failed_Count": -1}}`. -/
def countDesc (a b : String × Nat) : Prop := b.2 ≤ a.2

instance : DecidableRel countDesc := fun a b => inferInstanceAs (Decidable (b.2 ≤ a.2))

instance : IsTotal (String × Nat) countDesc := ⟨fun a b => le_total b.2 a.2⟩

instance : IsTrans (String × Nat) countDesc :=
  ⟨fun _ _ _ hab hbc => le_trans hbc hab⟩

/-- Use case 3: the full aggregation pipeline. -/
def repeated_failed_logins (logs : List AccessLog) : List (String × Nat) :=
  List.insertionSort countDesc ((groupCounts logs).filter fun p => decide (2 ≤ p.2))

/-- Number of documents for subject `i` with status "Failed". -/
def failedCount (logs : List AccessLog) (i : String) : Nat :=
  logs.countP fun l => l.STATUS == "Failed" && l._ID == i

theorem failedCountOf_eq (logs : List AccessLog) (i : String) :
    failedCountOf logs i = failedCount logs i := by
  unfold failedCountOf failedCount failedLogs
  rw [List.filter_filter, ← List.countP_eq_length_filter]
  exact List.countP_congr fun l _ => by
    simp only [Bool.and_eq_true, beq_iff_eq]
    exact and_comm

theorem mem_groupCounts {logs : List AccessLog} {i : String} {c : Nat} :
    (i, c) ∈ groupCounts logs ↔ i ∈ failedIds logs ∧ c = failedCount logs i := by
  simp only [groupCounts, List.mem_map, Prod.mk.injEq]
  constructor
  · rintro ⟨i', hi', rfl, rfl⟩
    exact ⟨hi', failedCountOf_eq logs i'⟩
  · rintro ⟨hi, rfl⟩
    exact ⟨i, hi, rfl, failedCountOf_eq _ _⟩

theorem mem_failedIds {logs : List AccessLog} {i : String} :
    i ∈ failedIds logs ↔ 0 < failedCount logs i := by
  unfold failedIds
  rw [List.mem_dedup, ← failedCountOf_eq]
  unfold failedCountOf
  rw [← List.countP_eq_length_filter, List.countP_pos_iff]
  simp only [List.mem_map]
  constructor
  · rintro ⟨l, hl, rfl⟩
    exact ⟨l, hl, by simp⟩
  · rintro ⟨l, hl, hid⟩
    exact ⟨l, hl, by simpa using hid⟩

/-- C7: the repeated-failed-logins pipeline returns exactly the subjects with at
least two "Failed" documents, paired with their failure counts, with no subject
listed twice, and ordered by descending failure count; a subject with exactly one
"Failed" login never appears. -/
theorem repeated_failed_spec (logs : List AccessLog) :
    (∀ i c, (i, c) ∈ repeated_failed_logins logs ↔
        (failedCount logs i = c ∧ 2 ≤ c)) ∧
      ((repeated_failed_logins logs).map Prod.fst).Nodup ∧
      (repeated_failed_logins logs).Pairwise countDesc := by
  refine ⟨?_, ?_, ?_⟩
  · intro i c
    unfold repeated_failed_logins
    rw [List.mem_insertionSort, List.mem_filter]
    simp only [decide_eq_true_eq]
    rw [mem_groupCounts]
    constructor
    · rintro ⟨⟨hi, rfl⟩, h2⟩
      exact ⟨rfl, h2⟩
    · rintro ⟨rfl, h2⟩
      exact ⟨⟨mem_failedIds.mpr (by omega), rfl⟩, h2⟩
  · have h1 : ((groupCounts logs).map Prod.fst).Nodup := by
      have hmap : (groupCounts logs).map Prod.fst = failedIds logs := by
        unfold groupCounts
        rw [List.map_map]
        exact List.map_id _
      rw [hmap]
      exact List.nodup_dedup _
    have h2 : (((groupCounts logs).filter fun p => decide (2 ≤ p.2)).map Prod.fst).Nodup :=
      List.Sublist.nodup ((List.filter_sublist (groupCounts logs)).map Prod.fst) h1
    exact (((List.perm_insertionSort countDesc _).map Prod.fst).nodup_iff).mpr h2
  · exact List.sorted_insertionSort countDesc _

/-! ### Use case 4: phishing victims, `analysis.py` lines 96-99 -/

/-- A `Phishing_attacks` document.  `ANOMALY_SCORE` is a two-decimal number,
modelled as an exact rational. -/
structure PhishingDoc where
  PHISHING_ID : String
  _ID : String
  ANOMALY_SCORE : ℚ
  LINK_CLICKED : Bool
  EMAIL_SUBJECT : String
  EMAIL_SENDER : String

/-- The query `{"ANOMALY_SCORE": {"$gt": 0.8}, "LINK_CLICKED": True}`. -/
def query_phish (d : PhishingDoc) : Bool :=
  decide ((4 : ℚ)/5 < d.ANOMALY_SCORE) && d.LINK_CLICKED

/-- `count_documents`: the number of documents matching a query. -/
def count_documents (docs : List PhishingDoc) (q : PhishingDoc → Bool) : Nat :=
  (docs.filter q).length

/-- `victim_count` of use case 4. -/
def victim_count (docs : List PhishingDoc) : Nat := count_documents docs query_phish

/-- C8: the high-risk phishing count counts exactly the documents with anomaly
score strictly above 0.8 whose link was clicked: a document with score at most
0.8 (in particular exactly 0.8) never contributes, a document whose link was not
clicked never contributes, and a document with score above 0.8 (in particular
0.81) and link clicked contributes exactly one. -/
theorem phishing_high_risk (docs : List PhishingDoc) (d : PhishingDoc) :
    (d.ANOMALY_SCORE ≤ 4/5 → victim_count (d :: docs) = victim_count docs) ∧
      (d.LINK_CLICKED = false → victim_count (d :: docs) = victim_count docs) ∧
      ((4 : ℚ)/5 < d.ANOMALY_SCORE → d.LINK_CLICKED = true →
        victim_count (d :: docs) = victim_count docs + 1) ∧
      (d.ANOMALY_SCORE = 81/100 → d.LINK_CLICKED = true →
        victim_count (d :: docs) = victim_count docs + 1) := by
  have hcons : ∀ b : Bool, query_phish d = b →
      victim_count (d :: docs) = if b then victim_count docs + 1 else victim_count docs := by
    intro b hb
    unfold victim_count count_documents
    rw [List.filter_cons, hb]
    cases b <;> simp
  refine ⟨?_, ?_, ?_, ?_⟩
  · intro hle
    have : query_phish d = false := by
      unfold query_phish
      rw [decide_eq_false (not_lt.mpr hle)]
      rfl
    simpa using hcons false this
  · intro hnc
    have : query_phish d = false := by
      unfold query_phish
      rw [hnc]
      exact Bool.and_false _
    simpa using hcons false this
  · intro hgt hc
    have : query_phish d = true := by
      unfold query_phish
      rw [decide_eq_true hgt, hc]
      rfl
    simpa using hcons true this
  · intro hs hc
    have hgt : (4 : ℚ)/5 < d.ANOMALY_SCORE := by rw [hs]; norm_num
    have : query_phish d = true := by
      unfold query_phish
      rw [decide_eq_true hgt, hc]
      rfl
    simpa using hcons true this

/-- Witness: one document with score 0.81 and link clicked makes the count 1. -/
def wPhishDoc : PhishingDoc :=
  { PHISHING_ID := "PH001", _ID := "EMP001", ANOMALY_SCORE := 81/100,
    LINK_CLICKED := true, EMAIL_SUBJECT := "Urgent Update",
    EMAIL_SENDER := "admin@banking.com" }

theorem phishing_high_risk_witness :
    victim_count [wPhishDoc] = victim_count [] + 1 :=
  (phishing_high_risk [] wPhishDoc).2.2.2 rfl rfl

/-! ### Use case 6: impossible travel, `analysis.py` lines 128-154 -/

/-- The ordering used by `df_logs.sort_values(by=['_ID', 'TIMESTAMP'])`:
lexicographic on subject id (byte-wise string order), then timestamp. -/
def logLe (a b : AccessLog) : Prop :=
  strLt a._ID b._ID = true ∨ (a._ID = b._ID ∧ a.TIMESTAMP ≤ b.TIMESTAMP)

instance : DecidableRel logLe := fun _ _ => inferInstanceAs (Decidable (_ ∨ _))

instance : IsTotal AccessLog logLe where
  total a b := by
    by_cases h1 : strLt a._ID b._ID = true
    · exact Or.inl (Or.inl h1)
    · by_cases h2 : strLt b._ID a._ID = true
      · exact Or.inr (Or.inl h2)
      · have hid : a._ID = b._ID :=
          strLt_connex (Bool.not_eq_true _ ▸ h1) (Bool.not_eq_true _ ▸ h2)
        rcases le_total a.TIMESTAMP b.TIMESTAMP with h | h
        · exact Or.inl (Or.inr ⟨hid, h⟩)
        · exact Or.inr (Or.inr ⟨hid.symm, h⟩)

instance : IsTrans AccessLog logLe where
  trans a b c hab hbc := by
    rcases hab with h1 | ⟨h1, h1'⟩ <;> rcases hbc with h2 | ⟨h2, h2'⟩
    · exact Or.inl (strLt_trans h1 h2)
    · exact Or.inl (h2 ▸ h1)
    · exact Or.inl (h1 ▸ h2)
    · exact Or.inr ⟨h1.trans h2, h1'.trans h2'⟩

/-- `df_logs.sort_values(by=['_ID', 'TIMESTAMP'])`. -/
def sort_values (logs : List AccessLog) : List AccessLog := List.insertionSort logLe logs

/-- The most recently seen country per subject, backing the
`groupby('_ID')['Country'].shift(1)` column. -/
def lastOf (seen : List (String × Option String)) (i : String) : Option (Option String) :=
  (seen.find? fun p => p.1 == i).map fun p => p.2

/-- Walk the (sorted) rows annotating each with its per-subject shifted country
(`None`-like when the subject has no earlier row). -/
def shiftPrev : List (String × Option String) → List AccessLog →
    List (AccessLog × Option (Option String))
  | _, [] => []
  | seen, e :: rest => (e, lastOf seen e._ID) :: shiftPrev ((e._ID, country e) :: seen) rest

/-- The row filter `(Country != Prev_Country) & (Prev_Country.notnull())`;
under pandas object semantics a null previous country fails `notnull()` and a
null current country differs from any non-null previous one. -/
def flaggedRow (ep : AccessLog × Option (Option String)) : Bool :=
  match ep.2 with
  | some (some c) => decide (country ep.1 ≠ some c)
  | _ => false

/-- Use case 6: the flagged rows (each with its previous country). -/
def impossible (logs : List AccessLog) : List (AccessLog × Option (Option String)) :=
  (shiftPrev [] (sort_values logs)).filter flaggedRow

theorem lastOf_cons_self (i : String) (c : Option String)
    (seen : List (String × Option String)) : lastOf ((i, c) :: seen) i = some c := by
  simp [lastOf, List.find?]

theorem lastOf_cons_ne {j i : String} (c : Option String)
    (seen : List (String × Option String)) (h : j ≠ i) :
    lastOf ((j, c) :: seen) i = lastOf seen i := by
  unfold lastOf
  rw [List.find?_cons_of_neg _ (by simpa using h)]

theorem shiftPrev_congr {i : String} :
    ∀ (l : List AccessLog), (∀ x ∈ l, x._ID = i) →
      ∀ (seen₁ seen₂ : List (String × Option String)),
        lastOf seen₁ i = lastOf seen₂ i → shiftPrev seen₁ l = shiftPrev seen₂ l
  | [], _, _, _, _ => rfl
  | e :: rest, hl, seen₁, seen₂, h => by
    have hid : e._ID = i := hl e (List.mem_cons_self e rest)
    unfold shiftPrev
    rw [hid, h]
    congr 1
    exact shiftPrev_congr rest (fun x hx => hl x (List.mem_cons_of_mem e hx)) _ _
      (by rw [lastOf_cons_self, lastOf_cons_self])

theorem shiftPrev_filter (i : String) :
    ∀ (l : List AccessLog) (seen : List (String × Option String)),
      (shiftPrev seen l).filter (fun ep => ep.1._ID == i) =
        shiftPrev seen (l.filter fun e => e._ID == i)
  | [], _ => rfl
  | e :: rest, seen => by
    have lhs : shiftPrev seen (e :: rest) =
        (e, lastOf seen e._ID) :: shiftPrev ((e._ID, country e) :: seen) rest := rfl
    rw [lhs, List.filter_cons, List.filter_cons]
    by_cases hid : (e._ID == i) = true
    · rw [if_pos hid, if_pos hid]
      have rhs : shiftPrev seen (e :: rest.filter fun e => e._ID == i) =
          (e, lastOf seen e._ID) :: shiftPrev ((e._ID, country e) :: seen)
            (rest.filter fun e => e._ID == i) := rfl
      rw [rhs]
      congr 1
      exact shiftPrev_filter i rest _
    · rw [if_neg hid, if_neg hid]
      rw [shiftPrev_filter i rest]
      exact shiftPrev_congr (rest.filter fun e => e._ID == i)
        (fun x hx => beq_iff_eq.mp (List.mem_filter.mp hx).2) _ _
        (lastOf_cons_ne _ _ fun hji => hid (beq_iff_eq.mpr hji))

/-- A reformulation of `shiftPrev` on a block of rows that all share one subject
id: each row is annotated with the country of the row before it. -/
def shiftFrom (pr : Option (Option String)) : List AccessLog →
    List (AccessLog × Option (Option String))
  | [] => []
  | e :: rest => (e, pr) :: shiftFrom (some (country e)) rest

theorem shiftPrev_uniform {i : String} :
    ∀ (l : List AccessLog), (∀ x ∈ l, x._ID = i) →
      ∀ (seen : List (String × Option String)),
        shiftPrev seen l = shiftFrom (lastOf seen i) l
  | [], _, _ => rfl
  | e :: rest, hl, seen => by
    have hid : e._ID = i := hl e (List.mem_cons_self e rest)
    have lhs : shiftPrev seen (e :: rest) =
        (e, lastOf seen e._ID) :: shiftPrev ((e._ID, country e) :: seen) rest := rfl
    have rhs : shiftFrom (lastOf seen i) (e :: rest) =
        (e, lastOf seen i) :: shiftFrom (some (country e)) rest := rfl
    rw [lhs, rhs, hid]
    congr 1
    rw [shiftPrev_uniform rest (fun x hx => hl x (List.mem_cons_of_mem e hx)),
      lastOf_cons_self]

theorem shiftFrom_mem :
    ∀ (l : List AccessLog), l.Pairwise (fun a b => a.TIMESTAMP < b.TIMESTAMP) →
      ∀ (pr0 : Option (Option String)) (e : AccessLog) (pr : Option (Option String)),
        ((e, pr) ∈ shiftFrom pr0 l ↔
          e ∈ l ∧
            ((pr = pr0 ∧ ∀ q ∈ l, e.TIMESTAMP ≤ q.TIMESTAMP) ∨
              ∃ p, p ∈ l ∧ p.TIMESTAMP < e.TIMESTAMP ∧
                (∀ q ∈ l, q.TIMESTAMP < e.TIMESTAMP → q.TIMESTAMP ≤ p.TIMESTAMP) ∧
                pr = some (country p)))
  | [], _, pr0, e, pr => by simp [shiftFrom]
  | x :: rest, hs, pr0, e, pr => by
    rw [List.pairwise_cons] at hs
    obtain ⟨hs1, hs'⟩ := hs
    have hunf : shiftFrom pr0 (x :: rest) =
        (x, pr0) :: shiftFrom (some (country x)) rest := rfl
    rw [hunf, List.mem_cons, shiftFrom_mem rest hs' (some (country x)) e pr]
    constructor
    · rintro (heq | ⟨hmem, hdis⟩)
      · rw [Prod.mk.injEq] at heq
        obtain ⟨rfl, rfl⟩ := heq
        refine ⟨List.mem_cons_self _ _, Or.inl ⟨rfl, ?_⟩⟩
        intro q hq
        rcases List.mem_cons.mp hq with rfl | hq'
        · exact le_refl _
        · exact le_of_lt (hs1 q hq')
      · refine ⟨List.mem_cons_of_mem _ hmem, ?_⟩
        rcases hdis with ⟨hpr, hmin⟩ | ⟨p, hp, hlt, hmax, hpr⟩
        · refine Or.inr ⟨x, List.mem_cons_self _ _, hs1 e hmem, ?_, hpr⟩
          intro q hq hqlt
          rcases List.mem_cons.mp hq with rfl | hq'
          · exact le_refl _
          · exact absurd hqlt (not_lt.mpr (hmin q hq'))
        · refine Or.inr ⟨p, List.mem_cons_of_mem _ hp, hlt, ?_, hpr⟩
          intro q hq hqlt
          rcases List.mem_cons.mp hq with rfl | hq'
          · exact le_of_lt (hs1 p hp)
          · exact hmax q hq' hqlt
    · rintro ⟨hmem, hdis⟩
      rcases List.mem_cons.mp hmem with rfl | hmem'
      · rcases hdis with ⟨hpr, _⟩ | ⟨p, hp, hlt, _, _⟩
        · exact Or.inl (by rw [hpr])
        · rcases List.mem_cons.mp hp with rfl | hp'
          · exact absurd hlt (lt_irrefl _)
          · exact absurd hlt (not_lt.mpr (le_of_lt (hs1 p hp')))
      · have hxe : x.TIMESTAMP < e.TIMESTAMP := hs1 e hmem'
        rcases hdis with ⟨hpr, hmin⟩ | ⟨p, hp, hlt, hmax, hpr⟩
        · exact absurd hxe (not_lt.mpr (hmin x (List.mem_cons_self _ _)))
        · rcases List.mem_cons.mp hp with rfl | hp'
          · refine Or.inr ⟨hmem', Or.inl ⟨hpr, ?_⟩⟩
            intro q hq
            by_contra hqe
            push_neg at hqe
            have h1 : q.TIMESTAMP ≤ p.TIMESTAMP :=
              hmax q (List.mem_cons_of_mem _ hq) hqe
            have h2 : p.TIMESTAMP < q.TIMESTAMP := hs1 q hq
            omega
          · exact Or.inr ⟨hmem', Or.inr ⟨p, hp', hlt,
              fun q hq hqlt => hmax q (List.mem_cons_of_mem _ hq) hqlt, hpr⟩⟩

/-- Pairwise-distinct timestamps among same-subject documents (no ties in the
per-subject sort). -/
def SameIdDistinctTs (logs : List AccessLog) : Prop :=
  logs.Pairwise fun a b => a._ID = b._ID → a.TIMESTAMP ≠ b.TIMESTAMP

/-- `p` is the immediately preceding event of `e`'s subject, in timestamp order. -/
def immPred (logs : List AccessLog) (p e : AccessLog) : Prop :=
  p ∈ logs ∧ p._ID = e._ID ∧ p.TIMESTAMP < e.TIMESTAMP ∧
    ∀ q ∈ logs, q._ID = e._ID → q.TIMESTAMP < e.TIMESTAMP → q.TIMESTAMP ≤ p.TIMESTAMP

instance (logs : List AccessLog) : Decidable (SameIdDistinctTs logs) :=
  inferInstanceAs (Decidable (List.Pairwise _ _))

instance (logs : List AccessLog) (p e : AccessLog) : Decidable (immPred logs p e) :=
  inferInstanceAs (Decidable (_ ∧ _ ∧ _ ∧ _))

theorem flaggedRow_eq_true {e : AccessLog} {pr : Option (Option String)} :
    flaggedRow (e, pr) = true ↔ ∃ c, pr = some (some c) ∧ country e ≠ some c := by
  match pr with
  | none => simp [flaggedRow]
  | some none => simp [flaggedRow]
  | some (some c) => simp [flaggedRow]

theorem impossible_mem_iff {logs : List AccessLog} (hk : SameIdDistinctTs logs)
    (e : AccessLog) (pr : Option (Option String)) :
    (e, pr) ∈ impossible logs ↔
      e ∈ logs ∧ ∃ p c, immPred logs p e ∧ country p = some c ∧
        country e ≠ some c ∧ pr = some (some c) := by
  have hperm : (sort_values logs).Perm logs := List.perm_insertionSort logLe logs
  have hsorted : (sort_values logs).Pairwise logLe := List.sorted_insertionSort logLe logs
  have hksort : (sort_values logs).Pairwise
      (fun a b => a._ID = b._ID → a.TIMESTAMP ≠ b.TIMESTAMP) :=
    (hperm.pairwise_iff (fun {a b} h hid hts => h hid.symm hts.symm)).mpr hk
  set i := e._ID with hi
  set s := (sort_values logs).filter (fun x => x._ID == i) with hsdef
  have hsub : s.Sublist (sort_values logs) := List.filter_sublist _
  have hall : ∀ x ∈ s, x._ID = i := fun x hx => beq_iff_eq.mp (List.mem_filter.mp hx).2
  have hstrict : s.Pairwise (fun a b => a.TIMESTAMP < b.TIMESTAMP) := by
    have hand := (List.Pairwise.sublist hsub hsorted).and (List.Pairwise.sublist hsub hksort)
    refine List.Pairwise.imp_of_mem ?_ hand
    intro a b ha hb hab
    obtain ⟨h1, h2⟩ := hab
    have hid : a._ID = b._ID := (hall a ha).trans (hall b hb).symm
    rcases h1 with h1 | ⟨_, h1'⟩
    · rw [hid, strLt_irrefl] at h1
      cases h1
    · exact lt_of_le_of_ne h1' (h2 hid)
  have huni : shiftPrev ([] : List (String × Option String)) s = shiftFrom none s := by
    rw [shiftPrev_uniform s hall []]
    rfl
  have hfilt : (shiftPrev [] (sort_values logs)).filter (fun ep => ep.1._ID == i) =
      shiftPrev [] s := shiftPrev_filter i (sort_values logs) []
  constructor
  · intro hmem
    obtain ⟨hmem1, hflag⟩ := List.mem_filter.mp hmem
    have hmem2 : (e, pr) ∈ (shiftPrev [] (sort_values logs)).filter
        (fun ep => ep.1._ID == i) :=
      List.mem_filter.mpr ⟨hmem1, beq_iff_eq.mpr hi.symm⟩
    rw [hfilt, huni, shiftFrom_mem s hstrict none e pr] at hmem2
    obtain ⟨hes, hdis⟩ := hmem2
    have hel : e ∈ logs := hperm.mem_iff.mp (List.mem_filter.mp hes).1
    rcases hdis with ⟨hpr, _⟩ | ⟨p, hp, hlt, hmax, hpr⟩
    · rw [hpr] at hflag
      simp [flaggedRow] at hflag
    · obtain ⟨c, hprc, hne⟩ := flaggedRow_eq_true.mp hflag
      have hcp : country p = some c := Option.some.inj (hpr.symm.trans hprc)
      refine ⟨hel, p, c, ⟨?_, ?_, hlt, ?_⟩, hcp, hne, hprc⟩
      · exact hperm.mem_iff.mp (List.mem_filter.mp hp).1
      · exact (hall p hp).trans hi
      · intro q hq hqid hqlt
        have hqs : q ∈ s :=
          List.mem_filter.mpr ⟨hperm.mem_iff.mpr hq, beq_iff_eq.mpr (hqid.trans hi.symm)⟩
        exact hmax q hqs hqlt
  · rintro ⟨hel, p, c, ⟨hpl, hpid, hlt, hmax⟩, hcp, hne, hprc⟩
    have hes : e ∈ s :=
      List.mem_filter.mpr ⟨hperm.mem_iff.mpr hel, beq_iff_eq.mpr hi.symm⟩
    have hps : p ∈ s :=
      List.mem_filter.mpr ⟨hperm.mem_iff.mpr hpl, beq_iff_eq.mpr (hpid.trans hi.symm)⟩
    have hmem2 : (e, pr) ∈ shiftFrom none s := by
      rw [shiftFrom_mem s hstrict none e pr]
      refine ⟨hes, Or.inr ⟨p, hps, hlt, ?_, ?_⟩⟩
      · intro q hq hqlt
        exact hmax q (hperm.mem_iff.mp (List.mem_filter.mp hq).1)
          ((hall q hq).trans hi) hqlt
      · rw [hprc, hcp]
    rw [← huni, ← hfilt] at hmem2
    exact List.mem_filter.mpr
      ⟨(List.mem_filter.mp hmem2).1, flaggedRow_eq_true.mpr ⟨c, hprc, hne⟩⟩

/-- C6: with per-subject distinct timestamps and every document carrying a
country, the impossible-travel check flags exactly the events having an
immediately preceding same-subject event (in ascending timestamp order) with a
different country; the earliest event of each subject is never flagged; and no
condition on the elapsed time between the two events is involved. -/
theorem impossible_travel_adjacency (logs : List AccessLog)
    (hk : SameIdDistinctTs logs) (hc : ∀ x ∈ logs, (country x).isSome = true) :
    (∀ e pr, (e, pr) ∈ impossible logs ↔
        (e ∈ logs ∧ ∃ p, immPred logs p e ∧ country p ≠ country e ∧
          pr = some (country p))) ∧
      ∀ e ∈ logs, (∀ q ∈ logs, q._ID = e._ID → e.TIMESTAMP ≤ q.TIMESTAMP) →
        ∀ pr, (e, pr) ∉ impossible logs := by
  constructor
  · intro e pr
    rw [impossible_mem_iff hk e pr]
    constructor
    · rintro ⟨hel, p, c, hip, hcp, hec, hpr⟩
      refine ⟨hel, p, hip, ?_, by rw [hpr, hcp]⟩
      rw [hcp]
      exact fun h => hec h.symm
    · rintro ⟨hel, p, hip, hne, hpr⟩
      obtain ⟨c, hcp⟩ := Option.isSome_iff_exists.mp (hc p hip.1)
      refine ⟨hel, p, c, hip, hcp, ?_, by rw [hpr, hcp]⟩
      rw [hcp] at hne
      exact fun h => hne h.symm
  · intro e hel hmin pr hmem
    obtain ⟨_, p, c, hip, _, _, _⟩ := (impossible_mem_iff hk e pr).mp hmem
    exact absurd hip.2.2.1 (not_lt.mpr (hmin p hip.1 hip.2.1))

/-- Witness data for the adjacency characterization: the two seeded documents
for one subject, one hour apart, London then Tokyo. -/
def wLondon : AccessLog :=
  { _ID := "EMP001", TIMESTAMP := 0,
    LOCATION := .dict [("City", "London"), ("Country", "UK")], STATUS := "Successful" }

def wTokyo : AccessLog :=
  { _ID := "EMP001", TIMESTAMP := 3600,
    LOCATION := .dict [("City", "Tokyo"), ("Country", "Japan")], STATUS := "Successful" }

theorem impossible_travel_adjacency_witness :
    (wTokyo, some (some "UK")) ∈ impossible [wLondon, wTokyo] :=
  ((impossible_travel_adjacency [wLondon, wTokyo] (by decide) (by decide)).1
    wTokyo (some (some "UK"))).mpr
    ⟨by decide, wLondon, by decide, by decide, by decide⟩

/-- C10: the country extraction tolerates a `LOCATION` that is absent, not a
dictionary, or lacking a "Country" key (it is a total function returning null in
all three cases); a document with null country is itself flagged whenever its
immediate same-subject predecessor has a non-null country, while a document
whose immediate predecessor has a null country is never flagged. -/
theorem impossible_missing_location (logs : List AccessLog)
    (hk : SameIdDistinctTs logs) :
    (getCountry LocField.absent = none ∧ getCountry LocField.nonDict = none ∧
        ∀ fields, (∀ q ∈ fields, q.1 ≠ "Country") →
          getCountry (LocField.dict fields) = none) ∧
      (∀ e p c, e ∈ logs → immPred logs p e → country e = none →
        country p = some c → (e, some (some c)) ∈ impossible logs) ∧
      ∀ e p, immPred logs p e → country p = none →
        ∀ pr, (e, pr) ∉ impossible logs := by
  refine ⟨⟨rfl, rfl, ?_⟩, ?_, ?_⟩
  · intro fields hf
    have hred : getCountry (LocField.dict fields) =
        (fields.find? fun p => p.1 == "Country").map fun p => p.2 := rfl
    rw [hred, List.find?_eq_none.mpr fun q hq => by simpa using hf q hq]
    rfl
  · intro e p c hel hip hce hcp
    exact (impossible_mem_iff hk e (some (some c))).mpr
      ⟨hel, p, c, hip, hcp, by rw [hce]; exact (Option.noConfusion ·), rfl⟩
  · intro e p hip hcp pr hmem
    obtain ⟨_, p', c', hip', hcp', _, _⟩ := (impossible_mem_iff hk e pr).mp hmem
    have hts : p.TIMESTAMP = p'.TIMESTAMP :=
      le_antisymm (hip'.2.2.2 p hip.1 hip.2.1 hip.2.2.1)
        (hip.2.2.2 p' hip'.1 hip'.2.1 hip'.2.2.1)
    have hpe : p = p' := by
      by_contra hne
      have hsymm : Symmetric
          (fun a b : AccessLog => a._ID = b._ID → a.TIMESTAMP ≠ b.TIMESTAMP) :=
        fun a b h hid hts => h hid.symm hts.symm
      have hrel := List.Pairwise.forall hsymm hk hip.1 hip'.1 hne
      exact hrel (hip.2.1.trans hip'.2.1.symm) hts
    rw [hpe, hcp'] at hcp
    cases hcp

/-- Witness: a document with a missing `LOCATION` following a London document
for the same subject is flagged with previous country "UK". -/
def wNoLoc : AccessLog :=
  { _ID := "EMP001", TIMESTAMP := 50, LOCATION := .absent, STATUS := "Failed" }

theorem impossible_missing_location_witness :
    (wNoLoc, some (some "UK")) ∈ impossible [wLondon, wNoLoc] :=
  (impossible_missing_location [wLondon, wNoLoc] (by decide)).2.1
    wNoLoc wLondon "UK" (by decide) (by decide) rfl rfl

/-! ### Seeding of `Access_logs` (`setup_all_databases.py`, section C) -/

/-- `str(i).zfill(3)`. -/
def pad3 (n : Nat) : String :=
  if n < 10 then "00" ++ toString n else if n < 100 then "0" ++ toString n else toString n

/-- `str(i).zfill(2)`. -/
def pad2 (n : Nat) : String :=
  if n < 10 then "0" ++ toString n else toString n

def employee_ids : List String := (List.range 60).map fun i => "EMP" ++ pad3 (i + 1)

def vendors_ids : List String := (List.range 19).map fun i => "VEND" ++ pad2 (i + 1)

def all_ids : List String := employee_ids ++ vendors_ids

def statuses : List String := ["Successful", "Failed"]

def seed_locations : List LocField :=
  [.dict [("City", "London"), ("Country", "UK")],
   .dict [("City", "Manchester"), ("Country", "UK")],
   .dict [("City", "Berlin"), ("Country", "Germany")],
   .dict [("City", "Paris"), ("Country", "France")],
   .dict [("City", "New York"), ("Country", "USA")],
   .dict [("City", "Tokyo"), ("Country", "Japan")]]

/-- The first hand-inserted document: EMP001 from London at clock reading `t`. -/
def londonLog (t : Int) : AccessLog :=
  { _ID := "EMP001", TIMESTAMP := t,
    LOCATION := .dict [("City", "London"), ("Country", "UK")], STATUS := "Successful" }

/-- The second hand-inserted document: EMP001 from Tokyo at clock reading `t`
plus one hour. -/
def tokyoLog (t : Int) : AccessLog :=
  { _ID := "EMP001", TIMESTAMP := t + 3600,
    LOCATION := .dict [("City", "Tokyo"), ("Country", "Japan")], STATUS := "Successful" }

/-- The seeded `Access_logs` collection: the two hand-inserted documents
(clock readings `t₁` and `t₂` for the two `datetime.now()` calls), followed by
the bulk-generated documents. -/
def access_logs_data (t₁ t₂ : Int) (bulk : List AccessLog) : List AccessLog :=
  londonLog t₁ :: tokyoLog t₂ :: bulk

/-- What one iteration of the bulk generator can produce, with clock reading
`n` at least the first hand-insert's reading `t₁`: a subject drawn from
`all_ids`, a timestamp `n - d*86400` with `d ≤ 30` random days back, a location
from the fixed list and a status from the fixed list. -/
def ValidBulkEntry (t₁ : Int) (e : AccessLog) : Prop :=
  e._ID ∈ all_ids ∧ e.LOCATION ∈ seed_locations ∧ e.STATUS ∈ statuses ∧
    ∃ n : Int, ∃ d : Nat, t₁ ≤ n ∧ d ≤ 30 ∧ e.TIMESTAMP = n - d * 86400

/-- A possible seeding run: monotone clock between the two hand-inserts and 200
valid bulk entries. -/
def ValidSeedRun (t₁ t₂ : Int) (bulk : List AccessLog) : Prop :=
  t₁ ≤ t₂ ∧ bulk.length = 200 ∧ ∀ e ∈ bulk, ValidBulkEntry t₁ e

/-- A bulk draw that also picks EMP001 (from Berlin, five days earlier). -/
def cexBerlin : AccessLog :=
  { _ID := "EMP001", TIMESTAMP := -432000,
    LOCATION := .dict [("City", "Berlin"), ("Country", "Germany")],
    STATUS := "Successful" }

/-- A neutral bulk draw for a vendor subject. -/
def cexVend : AccessLog :=
  { _ID := "VEND01", TIMESTAMP := 0,
    LOCATION := .dict [("City", "London"), ("Country", "UK")], STATUS := "Successful" }

def cexBulk : List AccessLog := cexBerlin :: List.replicate 199 cexVend

set_option maxRecDepth 8000 in
/-- C1 counterexample: a possible seeding run (the bulk generator draws
EMP001 once more, from Berlin, five days before the hand-inserted pair) in
which the impossible-travel check reports two flagged transitions for subject
EMP001 (Germany to UK and UK to Japan), not exactly one. -/
theorem impossible_travel_seed_cex :
    ValidSeedRun 0 0 cexBulk ∧
      ((impossible (access_logs_data 0 0 cexBulk)).filter
        fun ep => ep.1._ID == "EMP001").length = 2 := by
  constructor
  · have hlen : cexBulk.length = 200 := by
      show (cexBerlin :: List.replicate 199 cexVend).length = 200
      rw [List.length_cons, List.length_replicate]
    refine ⟨le_refl 0, hlen, ?_⟩
    intro e he
    rcases List.mem_cons.mp he with rfl | hrep
    · exact ⟨by decide, by decide, by decide, 0, 5, le_refl 0, by decide, by decide⟩
    · rw [List.eq_of_mem_replicate hrep]
      exact ⟨by decide, by decide, by decide, 0, 0, le_refl 0, by decide, by decide⟩
  · decide

theorem perm_pair_cases {α : Type} {l : List α} {a b : α} (h : l.Perm [a, b]) :
    l = [a, b] ∨ l = [b, a] := by
  rcases l with _ | ⟨x, _ | ⟨y, _ | ⟨z, t⟩⟩⟩
  · simpa using h.length_eq
  · simpa using h.length_eq
  · have hx : x = a ∨ x = b := by
      simpa using h.subset (List.mem_cons_self x [y])
    rcases hx with h1 | h1
    · left
      have h2 : y = b := by
        have hperm2 : (x :: [y]).Perm (a :: [b]) := h
        rw [h1] at hperm2
        simpa using List.perm_singleton.mp hperm2.cons_inv
      rw [h1, h2]
    · right
      have hswap : ([a, b] : List α).Perm [b, a] := List.Perm.swap b a []
      have h2 : y = a := by
        have hperm2 : (x :: [y]).Perm (b :: [a]) := h.trans hswap
        rw [h1] at hperm2
        simpa using List.perm_singleton.mp hperm2.cons_inv
      rw [h1, h2]
  · have hl := h.length_eq
    simp only [List.length_cons, List.length_nil] at hl
    omega

/-- C1 amended: after a seeding run whose bulk draws avoid subject EMP001 (and
with the monotone clock between the two hand-inserts), the impossible-travel
check reports exactly one flagged transition for EMP001: the Tokyo document,
with previous country "UK". -/
theorem impossible_travel_seeded_subject (t₁ t₂ : Int) (bulk : List AccessLog)
    (ht : t₁ ≤ t₂) (hb : ∀ x ∈ bulk, x._ID ≠ "EMP001") :
    (impossible (access_logs_data t₁ t₂ bulk)).filter
        (fun ep => ep.1._ID == "EMP001") =
      [(tokyoLog t₂, some (some "UK"))] := by
  set L := access_logs_data t₁ t₂ bulk with hL
  have h1 : (impossible L).filter (fun ep => ep.1._ID == "EMP001") =
      (shiftPrev [] ((sort_values L).filter fun e => e._ID == "EMP001")).filter
        flaggedRow := by
    unfold impossible
    rw [List.filter_comm, shiftPrev_filter]
  have hfl : L.filter (fun e => e._ID == "EMP001") = [londonLog t₁, tokyoLog t₂] := by
    show (londonLog t₁ :: tokyoLog t₂ :: bulk).filter (fun e => e._ID == "EMP001") = _
    rw [List.filter_cons, List.filter_cons, if_pos (by rfl), if_pos (by rfl),
      List.filter_eq_nil_iff.mpr fun a ha => by simpa using hb a ha]
  have hperm : ((sort_values L).filter fun e => e._ID == "EMP001").Perm
      [londonLog t₁, tokyoLog t₂] := by
    have hp := (List.perm_insertionSort logLe L).filter (fun e => e._ID == "EMP001")
    rw [hfl] at hp
    exact hp
  have hsorted : ((sort_values L).filter fun e => e._ID == "EMP001").Pairwise logLe :=
    List.Pairwise.sublist (List.filter_sublist _) (List.sorted_insertionSort logLe L)
  have heq : ((sort_values L).filter fun e => e._ID == "EMP001") =
      [londonLog t₁, tokyoLog t₂] := by
    rcases perm_pair_cases hperm with h | h
    · exact h
    · exfalso
      rw [h] at hsorted
      have hle : logLe (tokyoLog t₂) (londonLog t₁) :=
        (List.pairwise_cons.mp hsorted).1 _ (List.mem_cons_self _ _)
      rcases hle with hlt | ⟨_, hts⟩
      · rw [show (tokyoLog t₂)._ID = "EMP001" from rfl,
          show (londonLog t₁)._ID = "EMP001" from rfl, strLt_irrefl] at hlt
        simp at hlt
      · have hc : t₂ + 3600 ≤ t₁ := hts
        omega
  rw [h1, heq]
  rfl

theorem impossible_travel_seeded_subject_witness :
    (impossible (access_logs_data 0 0 [cexVend])).filter
        (fun ep => ep.1._ID == "EMP001") = [(tokyoLog 0, some (some "UK"))] :=
  impossible_travel_seeded_subject 0 0 [cexVend] (le_refl 0)
    (fun x hx => by rw [List.mem_singleton.mp hx]; decide)

/-! ### Console reporting and error handling (`analysis.py` top level) -/

/-- One console message produced by a use case: a printed table of some number
of rows, an explicit no-findings line, the phishing count line, or the
`Error: ...` line of the per-query `except` clause. -/
inductive Msg where
  | table : Nat → Msg
  | noFindings : String → Msg
  | countMsg : Nat → Msg
  | errMsg : String → Msg
deriving DecidableEq

def Msg.isNoFindings : Msg → Bool
  | .noFindings _ => true
  | _ => false

def Msg.isErr : Msg → Bool
  | .errMsg _ => true
  | _ => false

/-- Use case 1 reporting: rows, or ">> No after-hours access detected.", or the
caught error. -/
def use_case_1 (res : Except String (List (String × String × String))) : Msg :=
  match res with
  | .error e => .errMsg e
  | .ok df => if df.isEmpty then .noFindings ">> No after-hours access detected."
              else .table df.length

/-- Use case 2 reporting (SLA averages): the dataframe is printed whether or not
it is empty; there is no empty-result branch in the code. -/
def use_case_2 (res : Except String (List (String × ℚ))) : Msg :=
  match res with
  | .error e => .errMsg e
  | .ok df => .table df.length

def use_case_3 (res : Except String (List (String × Nat))) : Msg :=
  match res with
  | .error e => .errMsg e
  | .ok df => if df.isEmpty then .noFindings ">> No users exceeded failure threshold."
              else .table df.length

/-- Use case 4 reporting: always the count line, also when the count is zero. -/
def use_case_4 (res : Except String Nat) : Msg :=
  match res with
  | .error e => .errMsg e
  | .ok n => .countMsg n

def use_case_5 (res : Except String (List (String × String × ℚ))) : Msg :=
  match res with
  | .error e => .errMsg e
  | .ok df => if df.isEmpty then .noFindings ">> No large transfers detected."
              else .table df.length

def use_case_6 (res : Except String (List AccessLog)) : Msg :=
  match res with
  | .error e => .errMsg e
  | .ok logs =>
    if logs.isEmpty then .noFindings ">> No log data available."
    else if (impossible logs).isEmpty then
      .noFindings ">> No impossible travel patterns found."
    else .table (impossible logs).length

def use_case_7 (res : Except String (List (String × String × String))) : Msg :=
  match res with
  | .error e => .errMsg e
  | .ok df => if df.isEmpty then .noFindings ">> No RBAC violations detected."
              else .table df.length

def use_case_8 (res : Except String (List (String × String × String × String))) : Msg :=
  match res with
  | .error e => .errMsg e
  | .ok df => if df.isEmpty then .noFindings ">> All devices healthy."
              else .table df.length

/-- The eight reads run in sequence, each wrapped in its own try/except; the
output of each depends only on its own read's outcome. -/
def analysis_suite (r1 : Except String (List (String × String × String)))
    (r2 : Except String (List (String × ℚ)))
    (r3 : Except String (List (String × Nat)))
    (r4 : Except String Nat)
    (r5 : Except String (List (String × String × ℚ)))
    (r6 : Except String (List AccessLog))
    (r7 : Except String (List (String × String × String)))
    (r8 : Except String (List (String × String × String × String))) : List Msg :=
  [use_case_1 r1, use_case_2 r2, use_case_3 r3, use_case_4 r4,
   use_case_5 r5, use_case_6 r6, use_case_7 r7, use_case_8 r8]

/-- C3 counterexample: the SLA query (use case 2) has no empty-result branch:
on an empty result it prints the (empty) table, not a no-findings message, so
not all eight queries produce an explicit no-findings message on empty results. -/
theorem sla_empty_not_no_findings_cex :
    use_case_2 (Except.ok []) = Msg.table 0 ∧
      (use_case_2 (Except.ok [])).isNoFindings = false ∧
      (use_case_1 (Except.ok [])).isNoFindings = true :=
  ⟨rfl, rfl, rfl⟩

/-- C3 amended: six of the eight queries (1, 3, 5, 6, 7, 8) print an explicit
no-findings message on an empty result, distinct from the error output; use case
2 prints the raw (empty) table and use case 4 prints a zero count; each query's
failure is caught locally, so an error in one query leaves the other seven
outputs unchanged and all eight messages are still produced. -/
theorem suite_empty_and_error_reporting :
    (use_case_1 (Except.ok []) = Msg.noFindings ">> No after-hours access detected." ∧
      use_case_3 (Except.ok []) = Msg.noFindings ">> No users exceeded failure threshold." ∧
      use_case_5 (Except.ok []) = Msg.noFindings ">> No large transfers detected." ∧
      use_case_6 (Except.ok []) = Msg.noFindings ">> No log data available." ∧
      use_case_7 (Except.ok []) = Msg.noFindings ">> No RBAC violations detected." ∧
      use_case_8 (Except.ok []) = Msg.noFindings ">> All devices healthy.") ∧
      (use_case_2 (Except.ok []) = Msg.table 0 ∧
        use_case_4 (Except.ok 0) = Msg.countMsg 0) ∧
      (∀ s, (Msg.noFindings s).isErr = false ∧ (Msg.noFindings s).isNoFindings = true) ∧
      (∀ n, (Msg.table n).isErr = false) ∧
      (∀ e, (Msg.errMsg e).isErr = true ∧ (Msg.errMsg e).isNoFindings = false) ∧
      ∀ r1 r2 r3 r4 r5 r6 r7 r8,
        (analysis_suite r1 r2 r3 r4 r5 r6 r7 r8).length = 8 ∧
        ∀ e, analysis_suite (Except.error e) r2 r3 r4 r5 r6 r7 r8 =
          Msg.errMsg e :: (analysis_suite r1 r2 r3 r4 r5 r6 r7 r8).tail := by
  refine ⟨⟨rfl, rfl, rfl, rfl, rfl, rfl⟩, ⟨rfl, rfl⟩,
    fun s => ⟨rfl, rfl⟩, fun n => rfl, fun e => ⟨rfl, rfl⟩, ?_⟩
  intro r1 r2 r3 r4 r5 r6 r7 r8
  exact ⟨rfl, fun e => rfl⟩

/-! ### Connection handling (`analysis.py` lines 25-32, `setup_all_databases.py`
lines 27-47) -/

/-- Outcome of the connection block of `analysis.py`: `exit()` on any exception
(note: `exit()` with no argument exits with status 0, but terminates the run
before any query executes). -/
inductive ConnPhase where
  | connected : ConnPhase
  | exitedEarly : ConnPhase
deriving DecidableEq

/-- `analysis.py` lines 25-32: both connections in one try; any failure prints
CRITICAL and calls `exit()`. -/
def analysis_connect (sqlFail mongoFail : Bool) : ConnPhase :=
  if sqlFail || mongoFail then .exitedEarly else .connected

/-- Outcome of a `setup_all_databases.py` run. -/
inductive SetupOutcome where
  | exited : Nat → SetupOutcome
  | uncaughtAbort : SetupOutcome
  | completed : Bool → SetupOutcome
deriving DecidableEq

/-- `setup_all_databases.py` control flow: the SQLite connection block calls
`sys.exit(1)` on failure; the MongoDB connection block only prints a warning on
failure and the run continues (document collections are then not seeded); the
DDL/DML statements are not wrapped in any try/except, so a statement failure
aborts the run with an uncaught exception.  `completed b` records whether the
document store was seeded. -/
def setup_run (sqlConnFail mongoConnFail sqlStmtFail : Bool) : SetupOutcome :=
  if sqlConnFail then .exited 1
  else if sqlStmtFail then .uncaughtAbort
  else .completed (!mongoConnFail)

/-- C4 counterexample: in the setup script a document-store connection failure
is not fatal (the run continues to completion, merely without document
seeding), and a non-connection error (an SQL statement failure) does terminate
a run early — so connection failure is neither always fatal nor the only early
termination. -/
theorem setup_mongo_conn_not_fatal_cex :
    setup_run false true false = SetupOutcome.completed false ∧
      setup_run false false true = SetupOutcome.uncaughtAbort :=
  ⟨rfl, rfl⟩

/-- C4 amended: in the analysis script a failure to open either store
connection (and only that) terminates the run early, all other errors being
caught per query; in the setup script only the row-store connection failure
exits (with code 1), a document-store connection failure merely prints a
warning and the run continues without document seeding, and an uncaught SQL
statement error also aborts a run early. -/
theorem connection_failure_behavior :
    (∀ s m, analysis_connect s m = ConnPhase.exitedEarly ↔ (s = true ∨ m = true)) ∧
      (∀ s m st, setup_run s m st = SetupOutcome.exited 1 ↔ s = true) ∧
      (∀ m, setup_run false m false = SetupOutcome.completed (!m)) ∧
      setup_run false false true = SetupOutcome.uncaughtAbort := by
  refine ⟨?_, ?_, fun m => rfl, rfl⟩
  · intro s m
    cases s <;> cases m <;> decide
  · intro s m st
    cases s <;> cases m <;> cases st <;> decide

end SecuritySuite
